import Mathlib

/-!
Verification of `random_file_gen.ts` (a CLI that creates randomly named files
with random alphabetic content in randomly nested directories).

Shallow embedding conventions:
* `Math.random()` draws are modelled as a stream `g : Nat -> Rat` whose values
  a valid host keeps in `[0, 1)`; `randomBytes` is modelled as a byte stream
  `bytes : Nat -> Nat` (values reduced mod 256 where used).
* Strings are Lean `String`s; JS string indexing/`charAt`/`slice` for the ASCII
  strings this program builds coincide with `String.data` list operations.
* Filesystem effects are recorded in an explicit trace of operations; exit
  paths are an inductive outcome.  The fatal-error path (`process.exit(1)`) is
  outside the embedded fragment: no filesystem failure is modelled.
-/

namespace RandomFileGen

/-- The fixed extension pool (`const exts`). -/
def exts : List String := [".html", ".js", ".css", ".txt"]

/-- The alphabet used for random content (`const letters`). -/
def letters : String := "abcdefghijklmnopqrstuvwxyzABCDEFGHIJKLMNOPQRSTUVWXYZ"

/-- JS `s.charAt(i)`: the one-character string at index `i`, or `""` when the
index is out of range (negative included). -/
def charAt (s : String) (i : ℤ) : String :=
  if 0 ≤ i then
    match s.data.get? i.toNat with
    | some c => String.singleton c
    | none => ""
  else ""

/-- Model of `rndInt(min, max)`: `Math.floor(Math.random() * (max - min + 1)) + min`,
with the `Math.random()` draw `r` made explicit. Inclusive on both ends when
`0 ≤ r < 1` and `min ≤ max`. -/
def rndInt (r : ℚ) (min max : ℤ) : ℤ :=
  ⌊r * ((max - min + 1 : ℤ) : ℚ)⌋ + min

/-- Model of `rndString(len)`: `len` iterations of
`out += letters.charAt(Math.floor(Math.random() * letters.length))`,
the draws taken from the stream `g`. -/
def rndString (g : ℕ → ℚ) (len : ℕ) : String :=
  (List.range len).foldl
    (fun out i => out ++ charAt letters ⌊g i * ((letters.length : ℤ) : ℚ)⌋) ""

/-- The lowercase hex digits used by Node's `Buffer.toString("hex")`. -/
def hexChars : String := "0123456789abcdef"

/-- One byte rendered as two lowercase hex characters. -/
def byteToHex (b : ℕ) : String :=
  String.singleton (hexChars.data.getD (b % 256 / 16) 'x') ++
    String.singleton (hexChars.data.getD (b % 16) 'x')

/-- Model of `rndHex(len)`: `randomBytes(Math.ceil(len / 2)).toString("hex").slice(0, len)`,
the byte source made explicit. -/
def rndHex (bytes : ℕ → ℕ) (len : ℕ) : String :=
  ⟨(((List.range ((len + 1) / 2)).map (fun i => byteToHex (bytes i))).foldl
      (· ++ ·) "").data.take len⟩

/-- JS `arr[idx]` for a string array: the element, or `""` standing in for
`undefined` when the index is out of range. -/
def arrGet (arr : List String) (idx : ℤ) : String :=
  if 0 ≤ idx then arr.getD idx.toNat "" else ""

/-- Model of `pick(arr)`: `arr[Math.floor(Math.random() * arr.length)]` with the draw
made explicit. -/
def pick (r : ℚ) (arr : List String) : String :=
  arrGet arr ⌊r * ((arr.length : ℤ) : ℚ)⌋

/-- Model of `path.join(a, b)` for the well-formed segment names this program produces. -/
def pathJoin (a b : String) : String := a ++ "/" ++ b

/-- Model of `path.join(base, ...parts)`. -/
def pathJoinList (base : String) (parts : List String) : String :=
  parts.foldl pathJoin base

/-- Model of `path.resolve(cwd, p)` for the paths this program handles: absolute paths
kept, relative paths joined under `cwd` (no `..`-normalisation modelled). -/
def pathResolve (cwd p : String) : String :=
  match p.data with
  | '/' :: _ => p
  | _ => cwd ++ "/" ++ p

/-- The resolved configuration record (`type Options`). -/
structure Options where
  outDir : String
  count : ℤ
  minLen : ℤ
  maxLen : ℤ
  maxDepth : ℤ
  deriving Repr, DecidableEq

/-- Model of `DEFAULTS`, with `process.cwd()` made explicit. -/
def DEFAULTS (cwd : String) : Options :=
  { outDir := pathResolve cwd "dist"
    count := 20
    minLen := 50
    maxLen := 500
    maxDepth := 3 }

/-- JS `s.slice(0, n)` for the ASCII strings this program builds. -/
def sliceTo (s : String) (n : ℕ) : String := ⟨s.data.take n⟩

/-- The depth drawn by `makeRandomDir`: `rndInt(1, Math.max(1, maxDepth))`. -/
def makeRandomDirDepth (r : ℚ) (maxDepth : ℤ) : ℤ :=
  rndInt r 1 (max 1 maxDepth)

/-- The segment names pushed by `makeRandomDir`'s loop: `depth` tokens of
`rndHex(6)`, each consuming 3 bytes of the byte stream. -/
def makeRandomDirParts (bytes : ℕ → ℕ) (depth : ℕ) : List String :=
  (List.range depth).map (fun i => rndHex (fun j => bytes (3 * i + j)) 6)

/-- The directory path built by `makeRandomDir`:
`path.join(base, ...parts)` (the `fs.mkdir` side effect is traced by the
orchestrator model). -/
def makeRandomDir (base : String) (maxDepth : ℤ) (r : ℚ) (bytes : ℕ → ℕ) :
    String :=
  pathJoinList base (makeRandomDirParts bytes (makeRandomDirDepth r maxDepth).toNat)

/-- The extension-specific final content of `makeRandomFile` (lines 65-72 of
the source): the raw `content` is wrapped for `.html`/`.js`/`.css` and left
bare otherwise; `hex` is the branch's `rndHex(6)` token. -/
def wrapContent (ext content hex : String) : String :=
  if ext = ".html" then
    "<!doctype html>\n<html>\n<head>\n  <meta charset=\"utf-8\">\n  <title>" ++
      hex ++ "</title>\n</head>\n<body>\n" ++ content ++ "\n</body>\n</html>\n"
  else if ext = ".js" then
    "// " ++ hex ++ "\n(function()\x7b\n  const s = \"" ++ content ++
      "\";\n  // random content\n  return s.length;\n\x7d)();\n"
  else if ext = ".css" then
    "/* " ++ hex ++ " */\nbody::after \x7b content: \"" ++ sliceTo content 30 ++
      "\"; \x7d\n"
  else content

/-- Everything `makeRandomFile` computes, with the intermediate values exposed
for specification (the source returns `fullPath` and writes `finalContent`). -/
structure FileResult where
  ext : String
  name : String
  len : ℤ
  rawContent : String
  finalContent : String
  fullPath : String
  deriving Repr, DecidableEq

/-- Model of `makeRandomFile(dir, minLen, maxLen)`.  Draw layout within the call:
`g 0` picks the extension, `g 1` picks the length, `g (2+i)` the content
characters; `bytes 0..3` feed the filename's `rndHex(8)` and the next bytes
feed the template's `rndHex(6)`. -/
def makeRandomFile (dir : String) (minLen maxLen : ℤ) (g : ℕ → ℚ)
    (bytes : ℕ → ℕ) : FileResult :=
  let ext := pick (g 0) exts
  let name := "file_" ++ rndHex bytes 8 ++ ext
  let len := rndInt (g 1) minLen maxLen
  let content := rndString (fun i => g (2 + i)) len.toNat
  let finalContent := wrapContent ext content (rndHex (fun i => bytes (4 + i)) 6)
  { ext := ext
    name := name
    len := len
    rawContent := content
    finalContent := finalContent
    fullPath := pathJoin dir name }

/-- Outcome of parsing one `argv`: either `--help`/`-h` was hit (usage printed,
`process.exit(0)`) or the loop ran to completion with final options. -/
inductive ParseResult where
  | help : ParseResult
  | opts : Options → ParseResult
  deriving Repr, DecidableEq

/-- Model of `parseInt(x, 10) || current`: a parse that fails (`NaN`) or yields the
falsy `0` keeps the current value. -/
def orDefault (v : Option ℤ) (current : ℤ) : ℤ :=
  match v with
  | some n => if n = 0 then current else n
  | none => current

/-- Maximal decimal-digit prefix value, `none` when there is no digit. -/
def digitsPrefixVal (cs : List Char) : Option ℕ :=
  let ds := cs.takeWhile Char.isDigit
  if ds.isEmpty then none
  else some (ds.foldl (fun acc c => 10 * acc + (c.toNat - 48)) 0)

/-- Model of JS `parseInt(s, 10)`: skip leading whitespace, optional sign, then the
maximal decimal-digit prefix; `none` models `NaN`. -/
def parseIntJS (s : String) : Option ℤ :=
  let cs := s.data.dropWhile (fun c => c == ' ' || c == '\t' || c == '\n' || c == '\r')
  match cs with
  | '-' :: rest => (digitsPrefixVal rest).map (fun n => -(n : ℤ))
  | '+' :: rest => (digitsPrefixVal rest).map (fun n => (n : ℤ))
  | _ => (digitsPrefixVal cs).map (fun n => (n : ℤ))

/-- The CLI loop of `main` (lines 84-100): each value-taking flag consumes the
following token when that token is truthy (present and non-empty); `--help` or
`-h` reached as a flag short-circuits. -/
def parseArgs (cwd : String) : List String → Options → ParseResult
  | [], o => .opts o
  | [a], o => if a = "--help" ∨ a = "-h" then .help else .opts o
  | a :: v :: rest, o =>
    if a = "--count" ∧ v ≠ "" then
      parseArgs cwd rest { o with count := orDefault (parseIntJS v) o.count }
    else if a = "--min" ∧ v ≠ "" then
      parseArgs cwd rest { o with minLen := orDefault (parseIntJS v) o.minLen }
    else if a = "--max" ∧ v ≠ "" then
      parseArgs cwd rest { o with maxLen := orDefault (parseIntJS v) o.maxLen }
    else if a = "--out" ∧ v ≠ "" then
      parseArgs cwd rest { o with outDir := pathResolve cwd v }
    else if a = "--depth" ∧ v ≠ "" then
      parseArgs cwd rest { o with maxDepth := orDefault (parseIntJS v) o.maxDepth }
    else if a = "--help" ∨ a = "-h" then .help
    else parseArgs cwd (v :: rest) o

/-- The "sanity" clamping of `main` (lines 103-104). -/
def clampOpts (o : Options) : Options :=
  let o1 := if o.minLen < 0 then { o with minLen := 0 } else o
  if o1.maxLen < o1.minLen then { o1 with maxLen := o1.minLen } else o1

/-- A traced filesystem side effect. -/
inductive FsOp where
  | mkdirRec : String → FsOp
  | writeFile : String → String → FsOp
  deriving Repr, DecidableEq

/-- One iteration of `main`'s loop: `makeRandomDir` (its `fs.mkdir` traced)
then `makeRandomFile` (its `fs.writeFile` traced), returning the created
file's path.  `gi`/`bi` are the iteration's random and byte streams; within
the iteration `gi 0` is the depth draw and the rest feed `makeRandomFile`,
while the first `3 * depth` bytes name the directory segments. -/
def iterate (outDir : String) (minLen maxLen maxDepth : ℤ) (gi : ℕ → ℚ)
    (bi : ℕ → ℕ) : String × List FsOp :=
  let depth := makeRandomDirDepth (gi 0) maxDepth
  let dir := pathJoinList outDir (makeRandomDirParts bi depth.toNat)
  let f := makeRandomFile dir minLen maxLen (fun k => gi (1 + k))
    (fun k => bi (3 * depth.toNat + k))
  (f.fullPath, [FsOp.mkdirRec dir, FsOp.writeFile f.fullPath f.finalContent])

/-- The loop `for (let i = 0; i < opts.count; i++)` of `main`, with the
`created.push(file)` accumulator and the effect trace carried explicitly:
`i` is the loop counter, `fuel` the remaining iterations. -/
def mainLoopAux (outDir : String) (minLen maxLen maxDepth : ℤ)
    (g : ℕ → ℕ → ℚ) (bytes : ℕ → ℕ → ℕ) :
    ℕ → ℕ → List String × List FsOp → List String × List FsOp
  | _, 0, acc => acc
  | i, fuel + 1, (created, ops) =>
    let step := iterate outDir minLen maxLen maxDepth (g i) (bytes i)
    mainLoopAux outDir minLen maxLen maxDepth g bytes (i + 1) fuel
      (created ++ [step.1], ops ++ step.2)

/-- Model of `main`'s loop from `i = 0` with empty accumulators; a count below zero
runs the loop zero times, matching `i < opts.count`. -/
def mainLoop (outDir : String) (minLen maxLen maxDepth : ℤ)
    (g : ℕ → ℕ → ℚ) (bytes : ℕ → ℕ → ℕ) (n : ℕ) :
    List String × List FsOp :=
  mainLoopAux outDir minLen maxLen maxDepth g bytes 0 n ([], [])

/-- The usage text returned by `usage()` (with `DEFAULTS` interpolated). -/
def usage : String :=
  "\nUsage: ts-node make-random-files.ts [options]\n\nOptions:\n" ++
  "  --count N     Number of files to create (default: 20)\n" ++
  "  --min N       Minimum characters per file content (default: 50)\n" ++
  "  --max N       Maximum characters per file content (default: 500)\n" ++
  "  --out DIR     Output base directory (default: ./dist)\n" ++
  "  --depth N     Max random directory depth (default: 3)\n" ++
  "  --help, -h    Show this help\n"

/-- How one invocation of `main` ends: `--help`/`-h` exits before any
filesystem work, otherwise the run completes with the clamped options, the
`created` list and the trace of filesystem operations. -/
inductive MainOutcome where
  | helpExit : MainOutcome
  | done : Options → List String → List FsOp → MainOutcome
  deriving Repr, DecidableEq

/-- Model of `main(argv)` (the error path `process.exit(1)` is not modelled: no
filesystem failure occurs in the embedding). -/
def mainRun (cwd : String) (argv : List String) (g : ℕ → ℕ → ℚ)
    (bytes : ℕ → ℕ → ℕ) : MainOutcome :=
  match parseArgs cwd argv (DEFAULTS cwd) with
  | .help => .helpExit
  | .opts o0 =>
    let o := clampOpts o0
    let res := mainLoop o.outDir o.minLen o.maxLen o.maxDepth g bytes o.count.toNat
    .done o res.1 (FsOp.mkdirRec o.outDir :: res.2)

/-- The list `created` reported at the end of `main` (empty on the help path,
which returns before the loop). -/
def MainOutcome.createdFiles : MainOutcome → List String
  | .helpExit => []
  | .done _ created _ => created

/-- The filesystem operations an outcome performed (none on the help path:
`process.exit(0)` fires inside the parse loop, before `fs.mkdir`). -/
def MainOutcome.fsTrace : MainOutcome → List FsOp
  | .helpExit => []
  | .done _ _ ops => ops

/-- The process exit code of an outcome: 0 for the help path
(`process.exit(0)`) and 0 for a completed run (`main` resolves). -/
def MainOutcome.exitCode : MainOutcome → ℕ
  | .helpExit => 0
  | .done _ _ _ => 0

/-- Model of `path.relative(cwd, p)` for the paths this program prints. -/
def pathRelative (cwd p : String) : String :=
  if (cwd ++ "/").data.isPrefixOf p.data then ⟨p.data.drop (cwd ++ "/").length⟩
  else p

/-- The lines written to standard output: the usage text on the help path,
otherwise the summary line followed by one line per created file. -/
def MainOutcome.stdoutLines (cwd : String) : MainOutcome → List String
  | .helpExit => [usage]
  | .done o created _ =>
    ("Created " ++ toString created.length ++ " files under " ++ o.outDir) ::
      created.map (fun f => " - " ++ pathRelative cwd f)

/-- A constantly-zero `Math.random()` stream (a valid draw sequence). -/
def zeroRand : ℕ → ℕ → ℚ := fun _ _ => 0

/-- A constantly-zero `Math.random()` stream for a single call. -/
def zeroRand1 : ℕ → ℚ := fun _ => 0

/-- A constantly-zero byte stream. -/
def zeroBytes : ℕ → ℕ → ℕ := fun _ _ => 0

/-- A constantly-zero byte stream for a single call. -/
def zeroBytes1 : ℕ → ℕ := fun _ => 0

/-! ### Helper lemmas -/

theorem floor_mul_lt (r : ℚ) (n : ℤ) (h0 : 0 ≤ r) (h1 : r < 1) (hn : 0 < n) :
    0 ≤ ⌊r * (n : ℚ)⌋ ∧ ⌊r * (n : ℚ)⌋ < n := by
  have hnq : (0 : ℚ) < (n : ℚ) := by exact_mod_cast hn
  have h2 : (0 : ℚ) ≤ r * (n : ℚ) := mul_nonneg h0 hnq.le
  have h3 : r * (n : ℚ) < (n : ℚ) := by
    calc r * (n : ℚ) < 1 * (n : ℚ) := mul_lt_mul_of_pos_right h1 hnq
    _ = (n : ℚ) := one_mul _
  refine ⟨?_, ?_⟩
  · exact Int.le_floor.mpr (by exact_mod_cast h2)
  · exact Int.floor_lt.mpr h3

theorem rndInt_bounds (r : ℚ) (min max : ℤ) (h0 : 0 ≤ r) (h1 : r < 1)
    (hmm : min ≤ max) : min ≤ rndInt r min max ∧ rndInt r min max ≤ max := by
  have hn : (0 : ℤ) < max - min + 1 := by omega
  have hb := floor_mul_lt r (max - min + 1) h0 h1 hn
  unfold rndInt
  omega

theorem charAt_mem (s : String) (i : ℤ) (h0 : 0 ≤ i) (hi : i.toNat < s.length) :
    ∃ c, c ∈ s.data ∧ charAt s i = String.singleton c := by
  unfold charAt
  rw [if_pos h0]
  cases hg : s.data.get? i.toNat with
  | none =>
    exact absurd (List.get?_eq_none.mp hg) (by exact Nat.not_le.mpr hi)
  | some c =>
    exact ⟨c, List.get?_mem hg, rfl⟩

theorem letters_length : letters.length = 52 := by decide

theorem charAt_letters_mem (r : ℚ) (h0 : 0 ≤ r) (h1 : r < 1) :
    ∃ c, c ∈ letters.data ∧
      charAt letters ⌊r * ((letters.length : ℤ) : ℚ)⌋ = String.singleton c := by
  have hb := floor_mul_lt r ((letters.length : ℤ)) h0 h1 (by decide)
  refine charAt_mem letters _ hb.1 ?_
  have := hb.2
  omega

theorem rndString_aux (g : ℕ → ℚ) (hg : ∀ n, 0 ≤ g n ∧ g n < 1) :
    ∀ (l : List ℕ) (acc : String),
      ((l.foldl
        (fun out i => out ++ charAt letters ⌊g i * ((letters.length : ℤ) : ℚ)⌋)
        acc).length = acc.length + l.length) ∧
      (∀ c ∈ (l.foldl
        (fun out i => out ++ charAt letters ⌊g i * ((letters.length : ℤ) : ℚ)⌋)
        acc).data, c ∈ acc.data ∨ c ∈ letters.data) := by
  intro l
  induction l with
  | nil =>
    intro acc
    exact ⟨by simp, fun c hc => Or.inl (by simpa using hc)⟩
  | cons i l ih =>
    intro acc
    obtain ⟨c, hcmem, hceq⟩ := charAt_letters_mem (g i) (hg i).1 (hg i).2
    have ih2 := ih (acc ++ charAt letters ⌊g i * ((letters.length : ℤ) : ℚ)⌋)
    constructor
    · rw [List.foldl_cons, ih2.1, String.length_append, hceq,
        String.length_singleton, List.length_cons]
      omega
    · intro ch hch
      rw [List.foldl_cons] at hch
      rcases ih2.2 ch hch with h | h
      · rw [String.data_append, hceq] at h
        rcases List.mem_append.mp h with h | h
        · exact Or.inl h
        · simp only [String.singleton] at h
          simp at h
          subst h
          exact Or.inr hcmem
      · exact Or.inr h

theorem rndString_spec (g : ℕ → ℚ) (hg : ∀ n, 0 ≤ g n ∧ g n < 1) (len : ℕ) :
    (rndString g len).length = len ∧
      ∀ c ∈ (rndString g len).data, c ∈ letters.data := by
  have h := rndString_aux g hg (List.range len) ""
  unfold rndString
  refine ⟨?_, ?_⟩
  · rw [h.1]; simp
  · intro c hc
    rcases h.2 c hc with h | h
    · simp at h
    · exact h

theorem mainLoopAux_spec (outDir : String) (minLen maxLen maxDepth : ℤ)
    (g : ℕ → ℕ → ℚ) (bytes : ℕ → ℕ → ℕ) :
    ∀ (fuel i : ℕ) (created : List String) (ops : List FsOp),
      mainLoopAux outDir minLen maxLen maxDepth g bytes i fuel (created, ops) =
        (created ++ (List.range fuel).map
          (fun k => (iterate outDir minLen maxLen maxDepth (g (i + k)) (bytes (i + k))).1),
         ops ++ ((List.range fuel).map
          (fun k => (iterate outDir minLen maxLen maxDepth (g (i + k)) (bytes (i + k))).2)).flatten) := by
  intro fuel
  induction fuel with
  | zero =>
    intro i created ops
    simp [mainLoopAux]
  | succ n ih =>
    intro i created ops
    have hstep : mainLoopAux outDir minLen maxLen maxDepth g bytes i (n + 1) (created, ops) =
        mainLoopAux outDir minLen maxLen maxDepth g bytes (i + 1) n
          (created ++ [(iterate outDir minLen maxLen maxDepth (g i) (bytes i)).1],
           ops ++ (iterate outDir minLen maxLen maxDepth (g i) (bytes i)).2) := rfl
    rw [hstep, ih (i + 1), List.range_succ_eq_map]
    have hmap1 : List.map ((fun k => (iterate outDir minLen maxLen maxDepth
          (g (i + k)) (bytes (i + k))).1) ∘ Nat.succ) (List.range n)
        = List.map (fun k => (iterate outDir minLen maxLen maxDepth
          (g (i + 1 + k)) (bytes (i + 1 + k))).1) (List.range n) := by
      apply List.map_congr_left
      intro k _
      simp only [Function.comp_apply]
      have h : i + Nat.succ k = i + 1 + k := by omega
      rw [h]
    have hmap2 : List.map ((fun k => (iterate outDir minLen maxLen maxDepth
          (g (i + k)) (bytes (i + k))).2) ∘ Nat.succ) (List.range n)
        = List.map (fun k => (iterate outDir minLen maxLen maxDepth
          (g (i + 1 + k)) (bytes (i + 1 + k))).2) (List.range n) := by
      apply List.map_congr_left
      intro k _
      simp only [Function.comp_apply]
      have h : i + Nat.succ k = i + 1 + k := by omega
      rw [h]
    rw [List.map_cons, List.map_cons, List.map_map, List.map_map, hmap1, hmap2,
      List.flatten_cons, List.append_assoc, List.append_assoc,
      List.singleton_append]
    simp

theorem mainLoop_spec (outDir : String) (minLen maxLen maxDepth : ℤ)
    (g : ℕ → ℕ → ℚ) (bytes : ℕ → ℕ → ℕ) (n : ℕ) :
    mainLoop outDir minLen maxLen maxDepth g bytes n =
      ((List.range n).map
        (fun k => (iterate outDir minLen maxLen maxDepth (g k) (bytes k)).1),
       ((List.range n).map
        (fun k => (iterate outDir minLen maxLen maxDepth (g k) (bytes k)).2)).flatten) := by
  unfold mainLoop
  rw [mainLoopAux_spec]
  simp

theorem mainLoop_length (outDir : String) (minLen maxLen maxDepth : ℤ)
    (g : ℕ → ℕ → ℚ) (bytes : ℕ → ℕ → ℕ) (n : ℕ) :
    (mainLoop outDir minLen maxLen maxDepth g bytes n).1.length = n := by
  rw [mainLoop_spec]
  simp

theorem parseArgs_count_step (cwd v : String) (rest : List String) (o : Options)
    (hv : v ≠ "") :
    parseArgs cwd ("--count" :: v :: rest) o =
      parseArgs cwd rest { o with count := orDefault (parseIntJS v) o.count } := by
  simp [parseArgs, hv]

theorem parseArgs_min_step (cwd v : String) (rest : List String) (o : Options)
    (hv : v ≠ "") :
    parseArgs cwd ("--min" :: v :: rest) o =
      parseArgs cwd rest { o with minLen := orDefault (parseIntJS v) o.minLen } := by
  simp [parseArgs, hv]

theorem parseArgs_help_head (cwd : String) (rest : List String) (o : Options) :
    parseArgs cwd ("--help" :: rest) o = .help := by
  cases rest with
  | nil => simp [parseArgs]
  | cons v rest => simp [parseArgs]

theorem parseArgs_h_head (cwd : String) (rest : List String) (o : Options) :
    parseArgs cwd ("-h" :: rest) o = .help := by
  cases rest with
  | nil => simp [parseArgs]
  | cons v rest => simp [parseArgs]

theorem parseArgs_max_step (cwd v : String) (rest : List String) (o : Options)
    (hv : v ≠ "") :
    parseArgs cwd ("--max" :: v :: rest) o =
      parseArgs cwd rest { o with maxLen := orDefault (parseIntJS v) o.maxLen } := by
  simp [parseArgs, hv]

theorem parseArgs_out_step (cwd v : String) (rest : List String) (o : Options)
    (hv : v ≠ "") :
    parseArgs cwd ("--out" :: v :: rest) o =
      parseArgs cwd rest { o with outDir := pathResolve cwd v } := by
  simp [parseArgs, hv]

theorem parseArgs_depth_step (cwd v : String) (rest : List String) (o : Options)
    (hv : v ≠ "") :
    parseArgs cwd ("--depth" :: v :: rest) o =
      parseArgs cwd rest { o with maxDepth := orDefault (parseIntJS v) o.maxDepth } := by
  simp [parseArgs, hv]

theorem orDefault_ne_zero (v : Option ℤ) (d : ℤ) (hd : d ≠ 0) :
    orDefault v d ≠ 0 := by
  cases v with
  | none => exact hd
  | some n =>
    show (if n = 0 then d else n) ≠ 0
    by_cases hn : n = 0
    · rw [if_pos hn]; exact hd
    · rw [if_neg hn]; exact hn

theorem parseArgs_minLen_invariant (cwd : String) :
    ∀ (argv : List String) (o : Options), o.minLen ≠ 0 →
      ∀ o2, parseArgs cwd argv o = .opts o2 → o2.minLen ≠ 0 := by
  intro argv o
  induction argv, o using parseArgs.induct cwd with
  | case1 o =>
    intro h o2 he
    cases he
    exact h
  | case2 a o h1 =>
    intro h o2 he
    unfold parseArgs at he
    rw [if_pos h1] at he
    cases he
  | case3 a o h1 =>
    intro h o2 he
    unfold parseArgs at he
    rw [if_neg h1] at he
    cases he
    exact h
  | case4 a v rest o h1 ih =>
    intro h o2 he
    obtain ⟨ha, hv⟩ := h1
    subst ha
    rw [parseArgs_count_step cwd v rest o hv] at he
    exact ih h o2 he
  | case5 a v rest o h1 h2 ih =>
    intro h o2 he
    obtain ⟨ha, hv⟩ := h2
    subst ha
    rw [parseArgs_min_step cwd v rest o hv] at he
    exact ih (orDefault_ne_zero _ _ h) o2 he
  | case6 a v rest o h1 h2 h3 ih =>
    intro h o2 he
    obtain ⟨ha, hv⟩ := h3
    subst ha
    rw [parseArgs_max_step cwd v rest o hv] at he
    exact ih h o2 he
  | case7 a v rest o h1 h2 h3 h4 ih =>
    intro h o2 he
    obtain ⟨ha, hv⟩ := h4
    subst ha
    rw [parseArgs_out_step cwd v rest o hv] at he
    exact ih h o2 he
  | case8 a v rest o h1 h2 h3 h4 h5 ih =>
    intro h o2 he
    obtain ⟨ha, hv⟩ := h5
    subst ha
    rw [parseArgs_depth_step cwd v rest o hv] at he
    exact ih h o2 he
  | case9 a v rest o h1 h2 h3 h4 h5 h6 =>
    intro h o2 he
    unfold parseArgs at he
    rw [if_neg h1, if_neg h2, if_neg h3, if_neg h4, if_neg h5, if_pos h6] at he
    cases he
  | case10 a v rest o h1 h2 h3 h4 h5 h6 ih =>
    intro h o2 he
    unfold parseArgs at he
    rw [if_neg h1, if_neg h2, if_neg h3, if_neg h4, if_neg h5, if_neg h6] at he
    exact ih h o2 he

theorem clampOpts_minLen (o : Options) :
    (clampOpts o).minLen = if o.minLen < 0 then 0 else o.minLen := by
  unfold clampOpts
  by_cases h1 : o.minLen < 0 <;> by_cases h2 : o.maxLen < (if o.minLen < 0 then 0 else o.minLen) <;>
    simp [h1, h2] <;> split <;> simp_all

theorem clampOpts_maxLen (o : Options) :
    (clampOpts o).maxLen =
      if o.maxLen < (if o.minLen < 0 then 0 else o.minLen) then
        (if o.minLen < 0 then 0 else o.minLen)
      else o.maxLen := by
  unfold clampOpts
  by_cases h1 : o.minLen < 0 <;> by_cases h2 : o.maxLen < (if o.minLen < 0 then 0 else o.minLen) <;>
    simp [h1, h2] <;> split <;> simp_all

theorem clampOpts_others (o : Options) :
    (clampOpts o).outDir = o.outDir ∧ (clampOpts o).count = o.count ∧
      (clampOpts o).maxDepth = o.maxDepth := by
  unfold clampOpts
  by_cases h1 : o.minLen < 0 <;> by_cases h2 : o.maxLen < (if o.minLen < 0 then 0 else o.minLen) <;>
    simp [h1, h2] <;> split <;> simp_all

theorem mainRun_of_opts (cwd : String) (argv : List String) (g : ℕ → ℕ → ℚ)
    (bytes : ℕ → ℕ → ℕ) (o0 : Options)
    (h : parseArgs cwd argv (DEFAULTS cwd) = .opts o0) :
    mainRun cwd argv g bytes =
      .done (clampOpts o0)
        (mainLoop (clampOpts o0).outDir (clampOpts o0).minLen (clampOpts o0).maxLen
          (clampOpts o0).maxDepth g bytes (clampOpts o0).count.toNat).1
        (FsOp.mkdirRec (clampOpts o0).outDir ::
          (mainLoop (clampOpts o0).outDir (clampOpts o0).minLen (clampOpts o0).maxLen
            (clampOpts o0).maxDepth g bytes (clampOpts o0).count.toNat).2) := by
  unfold mainRun
  rw [h]

theorem mainRun_of_help (cwd : String) (argv : List String) (g : ℕ → ℕ → ℚ)
    (bytes : ℕ → ℕ → ℕ)
    (h : parseArgs cwd argv (DEFAULTS cwd) = .help) :
    mainRun cwd argv g bytes = .helpExit := by
  unfold mainRun
  rw [h]

/-! ### Claim theorems -/

/-- Claim C2: for every numeric flag (`--count`, `--min`, `--max`, `--depth`),
a following token that does not parse as an integer leaves the current value
of that option untouched and parsing proceeds normally; in particular
`--count abc` resolves count to the default 20. -/
theorem claim_C2_nonnumeric_value_falls_back (cwd v : String)
    (rest : List String) (o : Options) (hv : v ≠ "")
    (hp : parseIntJS v = none) :
    parseArgs cwd ("--count" :: v :: rest) o = parseArgs cwd rest o ∧
    parseArgs cwd ("--min" :: v :: rest) o = parseArgs cwd rest o ∧
    parseArgs cwd ("--max" :: v :: rest) o = parseArgs cwd rest o ∧
    parseArgs cwd ("--depth" :: v :: rest) o = parseArgs cwd rest o ∧
    parseArgs cwd ["--count", "abc"] (DEFAULTS cwd) = .opts (DEFAULTS cwd) ∧
    (DEFAULTS cwd).count = 20 := by
  refine ⟨?_, ?_, ?_, ?_, ?_, rfl⟩
  · rw [parseArgs_count_step cwd v rest o hv, hp]; rfl
  · rw [parseArgs_min_step cwd v rest o hv, hp]; rfl
  · rw [parseArgs_max_step cwd v rest o hv, hp]; rfl
  · rw [parseArgs_depth_step cwd v rest o hv, hp]; rfl
  · rw [parseArgs_count_step cwd "abc" [] (DEFAULTS cwd) (by decide),
      show parseIntJS "abc" = none by decide]
    rfl

/-- Witness for C2 at `--count abc` against the defaults. -/
theorem claim_C2_witness :
    ("abc" : String) ≠ "" ∧ parseIntJS "abc" = none ∧
    parseArgs "/cwd" ("--count" :: "abc" :: []) (DEFAULTS "/cwd") =
      parseArgs "/cwd" [] (DEFAULTS "/cwd") :=
  ⟨by decide, by decide,
    (claim_C2_nonnumeric_value_falls_back "/cwd" "abc" [] (DEFAULTS "/cwd")
      (by decide) (by decide)).1⟩

/-- Claim C5: after option resolution, a negative parsed minimum is clamped to
0, and a parsed maximum below the (possibly clamped) minimum is raised to that
minimum; consequently the effective minimum is non-negative and never exceeds
the effective maximum. -/
theorem claim_C5_sanity_clamping (o : Options) :
    (o.minLen < 0 → (clampOpts o).minLen = 0) ∧
    (0 ≤ o.minLen → (clampOpts o).minLen = o.minLen) ∧
    (o.maxLen < (clampOpts o).minLen → (clampOpts o).maxLen = (clampOpts o).minLen) ∧
    (clampOpts o).minLen ≤ (clampOpts o).maxLen ∧
    0 ≤ (clampOpts o).minLen := by
  have h1 := clampOpts_minLen o
  have h2 := clampOpts_maxLen o
  split_ifs at h1 h2 <;>
    refine ⟨?_, ?_, ?_, ?_, ?_⟩ <;> intros <;> omega

/-- Witness for C5 at a configuration with a negative minimum and a maximum
below it. -/
theorem claim_C5_witness :
    (clampOpts ⟨"d", 1, -5, -7, 1⟩).minLen = 0 ∧
    (clampOpts ⟨"d", 1, -5, -7, 1⟩).maxLen = (clampOpts ⟨"d", 1, -5, -7, 1⟩).minLen :=
  ⟨(claim_C5_sanity_clamping ⟨"d", 1, -5, -7, 1⟩).1 (by decide),
   (claim_C5_sanity_clamping ⟨"d", 1, -5, -7, 1⟩).2.2.1 (by decide)⟩

/-- Claim C9: for every numeric flag, a value token that parses to the integer
0 is treated like a non-numeric one — the option keeps its current default
(`--min 0` leaves the minimum at 50) — and an effective minimum of 0 is
reachable only through a negative parsed minimum being clamped. -/
theorem claim_C9_zero_value_keeps_default (cwd v : String)
    (rest : List String) (o : Options) (hv : v ≠ "")
    (hp : parseIntJS v = some 0) :
    parseArgs cwd ("--count" :: v :: rest) o = parseArgs cwd rest o ∧
    parseArgs cwd ("--min" :: v :: rest) o = parseArgs cwd rest o ∧
    parseArgs cwd ("--max" :: v :: rest) o = parseArgs cwd rest o ∧
    parseArgs cwd ("--depth" :: v :: rest) o = parseArgs cwd rest o ∧
    parseArgs cwd ["--min", "0"] (DEFAULTS cwd) = .opts (DEFAULTS cwd) ∧
    (DEFAULTS cwd).minLen = 50 ∧
    (∀ argv : List String, ∀ o2 : Options,
      parseArgs cwd argv (DEFAULTS cwd) = .opts o2 →
        o2.minLen ≠ 0 ∧ ((clampOpts o2).minLen = 0 ↔ o2.minLen < 0)) := by
  refine ⟨?_, ?_, ?_, ?_, ?_, rfl, ?_⟩
  · rw [parseArgs_count_step cwd v rest o hv, hp]; rfl
  · rw [parseArgs_min_step cwd v rest o hv, hp]; rfl
  · rw [parseArgs_max_step cwd v rest o hv, hp]; rfl
  · rw [parseArgs_depth_step cwd v rest o hv, hp]; rfl
  · rw [parseArgs_min_step cwd "0" [] (DEFAULTS cwd) (by decide),
      show parseIntJS "0" = some 0 by decide]
    rfl
  · intro argv o2 h
    have hne := parseArgs_minLen_invariant cwd argv (DEFAULTS cwd)
      (show (50 : ℤ) ≠ 0 by norm_num) o2 h
    have hmin := clampOpts_minLen o2
    refine ⟨hne, ?_⟩
    split_ifs at hmin <;> constructor <;> intro <;> omega

/-- Witness for C9 at `--min 0` against the defaults. -/
theorem claim_C9_witness :
    ("0" : String) ≠ "" ∧ parseIntJS "0" = some 0 ∧
    parseArgs "/cwd" ("--min" :: "0" :: []) (DEFAULTS "/cwd") =
      parseArgs "/cwd" [] (DEFAULTS "/cwd") :=
  ⟨by decide, by decide,
    (claim_C9_zero_value_keeps_default "/cwd" "0" [] (DEFAULTS "/cwd")
      (by decide) (by decide)).2.1⟩

/-- Claim C10: when any numeric flag's (`--count`, `--min`, `--max`,
`--depth`) next token is another of the program's flags (any of `--count`,
`--min`, `--max`, `--out`, `--depth`, `--help`, `-h`), that token is consumed
as the value: it parses as NaN so the first flag keeps its current default,
and parsing continues after the consumed token, which is therefore never
processed as a flag; for `--count --min 5` count stays 20, the minimum stays
50, and the trailing `5` is ignored. -/
theorem claim_C10_flag_consumed_as_value (cwd : String) (o : Options)
    (rest : List String) (f w : String)
    (hf : f ∈ ["--count", "--min", "--max", "--depth"])
    (hw : w ∈ ["--count", "--min", "--max", "--out", "--depth", "--help", "-h"]) :
    parseArgs cwd (f :: w :: rest) o = parseArgs cwd rest o ∧
    parseArgs cwd ["--count", "--min", "5"] (DEFAULTS cwd) =
      .opts (DEFAULTS cwd) ∧
    (DEFAULTS cwd).count = 20 ∧ (DEFAULTS cwd).minLen = 50 := by
  refine ⟨?_, ?_, rfl, rfl⟩
  · have hwprop : w ≠ "" ∧ parseIntJS w = none := by
      simp only [List.mem_cons, List.not_mem_nil, or_false] at hw
      rcases hw with h | h | h | h | h | h | h <;> subst h <;>
        exact ⟨by decide, by decide⟩
    simp only [List.mem_cons, List.not_mem_nil, or_false] at hf
    rcases hf with h | h | h | h <;> subst h
    · rw [parseArgs_count_step cwd w rest o hwprop.1, hwprop.2]; rfl
    · rw [parseArgs_min_step cwd w rest o hwprop.1, hwprop.2]; rfl
    · rw [parseArgs_max_step cwd w rest o hwprop.1, hwprop.2]; rfl
    · rw [parseArgs_depth_step cwd w rest o hwprop.1, hwprop.2]; rfl
  · rw [parseArgs_count_step cwd "--min" ["5"] (DEFAULTS cwd) (by decide),
      show parseIntJS "--min" = none by decide]
    show parseArgs cwd ["5"] (DEFAULTS cwd) = .opts (DEFAULTS cwd)
    simp [parseArgs]

/-- Witness for C10 at `--count` followed by the consumed flag `--min`. -/
theorem claim_C10_witness :
    ("--count" : String) ∈ ["--count", "--min", "--max", "--depth"] ∧
    ("--min" : String) ∈ ["--count", "--min", "--max", "--out", "--depth", "--help", "-h"] ∧
    parseArgs "/cwd" ("--count" :: "--min" :: ["5"]) (DEFAULTS "/cwd") =
      parseArgs "/cwd" ["5"] (DEFAULTS "/cwd") :=
  ⟨by decide, by decide,
    (claim_C10_flag_consumed_as_value "/cwd" (DEFAULTS "/cwd") ["5"] "--count" "--min"
      (by decide) (by decide)).1⟩

/-- Claim C3: for every generated file (any valid draw stream), the chosen raw
content length lies in `[minLen, maxLen]` (given `minLen ≤ maxLen`), the raw
string has exactly that length, and it consists only of ASCII letters. -/
theorem claim_C3_raw_content_length_and_alphabet (dir : String)
    (minLen maxLen : ℤ) (g : ℕ → ℚ) (bytes : ℕ → ℕ)
    (hg : ∀ n, 0 ≤ g n ∧ g n < 1) (h0 : 0 ≤ minLen) (hmm : minLen ≤ maxLen) :
    minLen ≤ (makeRandomFile dir minLen maxLen g bytes).len ∧
    (makeRandomFile dir minLen maxLen g bytes).len ≤ maxLen ∧
    ((makeRandomFile dir minLen maxLen g bytes).rawContent.length : ℤ) =
      (makeRandomFile dir minLen maxLen g bytes).len ∧
    (∀ c ∈ (makeRandomFile dir minLen maxLen g bytes).rawContent.data,
      c ∈ letters.data) ∧
    (∀ c ∈ letters.data, c.isAlpha = true) := by
  have hlen : (makeRandomFile dir minLen maxLen g bytes).len =
      rndInt (g 1) minLen maxLen := rfl
  have hraw : (makeRandomFile dir minLen maxLen g bytes).rawContent =
      rndString (fun i => g (2 + i)) (rndInt (g 1) minLen maxLen).toNat := rfl
  have hb := rndInt_bounds (g 1) minLen maxLen (hg 1).1 (hg 1).2 hmm
  have hs := rndString_spec (fun i => g (2 + i)) (fun i => hg (2 + i))
    (rndInt (g 1) minLen maxLen).toNat
  refine ⟨by rw [hlen]; exact hb.1, by rw [hlen]; exact hb.2, ?_, ?_, ?_⟩
  · rw [hlen, hraw, hs.1]
    omega
  · rw [hraw]
    exact hs.2
  · decide

/-- Witness for C3 with the all-zero draw stream and range `[1, 3]`. -/
theorem claim_C3_witness :
    (∀ n, 0 ≤ zeroRand1 n ∧ zeroRand1 n < 1) ∧ (0 : ℤ) ≤ 1 ∧ (1 : ℤ) ≤ 3 ∧
    (1 ≤ (makeRandomFile "/d" 1 3 zeroRand1 zeroBytes1).len ∧
     (makeRandomFile "/d" 1 3 zeroRand1 zeroBytes1).len ≤ 3 ∧
     ((makeRandomFile "/d" 1 3 zeroRand1 zeroBytes1).rawContent.length : ℤ) =
       (makeRandomFile "/d" 1 3 zeroRand1 zeroBytes1).len ∧
     (∀ c ∈ (makeRandomFile "/d" 1 3 zeroRand1 zeroBytes1).rawContent.data,
       c ∈ letters.data) ∧
     (∀ c ∈ letters.data, c.isAlpha = true)) :=
  ⟨fun n => ⟨le_refl 0, by norm_num [zeroRand1]⟩, by norm_num, by norm_num,
    claim_C3_raw_content_length_and_alphabet "/d" 1 3 zeroRand1 zeroBytes1
      (fun n => ⟨le_refl 0, by norm_num [zeroRand1]⟩) (by norm_num) (by norm_num)⟩

/-- Claim C4: for every created file and every `maxDepth` (negative and zero
included), the number of directory segments between the output base and the
file lies in `[1, max 1 maxDepth]`. -/
theorem claim_C4_directory_depth_bounds (maxDepth : ℤ) (r : ℚ)
    (bytes : ℕ → ℕ) (h0 : 0 ≤ r) (h1 : r < 1) :
    1 ≤ ((makeRandomDirParts bytes (makeRandomDirDepth r maxDepth).toNat).length : ℤ) ∧
    ((makeRandomDirParts bytes (makeRandomDirDepth r maxDepth).toNat).length : ℤ) ≤
      max 1 maxDepth := by
  have hb := rndInt_bounds r 1 (max 1 maxDepth) h0 h1 (le_max_left 1 maxDepth)
  have hlen : (makeRandomDirParts bytes (makeRandomDirDepth r maxDepth).toNat).length =
      (makeRandomDirDepth r maxDepth).toNat := by
    unfold makeRandomDirParts
    rw [List.length_map, List.length_range]
  rw [hlen]
  unfold makeRandomDirDepth at hb ⊢
  omega

/-- Witness for C4 at `maxDepth = -5` and the draw `1/2`. -/
theorem claim_C4_witness :
    (0 : ℚ) ≤ 1/2 ∧ (1/2 : ℚ) < 1 ∧
    (1 ≤ ((makeRandomDirParts zeroBytes1 (makeRandomDirDepth (1/2) (-5)).toNat).length : ℤ) ∧
     ((makeRandomDirParts zeroBytes1 (makeRandomDirDepth (1/2) (-5)).toNat).length : ℤ) ≤
       max 1 (-5)) :=
  ⟨by norm_num, by norm_num,
    claim_C4_directory_depth_bounds (-5) (1/2) zeroBytes1 (by norm_num) (by norm_num)⟩

/-- Claim C6: for every configuration with count `n ≥ 0`, the loop runs the
path generator then the file generator exactly `n` times: the accumulated list
holds exactly `n` paths in creation order (the `k`-th entry is the `k`-th
iteration's returned path), and each iteration's trace is one recursive mkdir
followed by one file write of the returned path. -/
theorem claim_C6_loop_creates_exactly_count_files (outDir : String)
    (minLen maxLen maxDepth : ℤ) (g : ℕ → ℕ → ℚ) (bytes : ℕ → ℕ → ℕ)
    (n : ℤ) (hn : 0 ≤ n) :
    ((mainLoop outDir minLen maxLen maxDepth g bytes n.toNat).1.length : ℤ) = n ∧
    (mainLoop outDir minLen maxLen maxDepth g bytes n.toNat).1 =
      (List.range n.toNat).map
        (fun k => (iterate outDir minLen maxLen maxDepth (g k) (bytes k)).1) ∧
    (mainLoop outDir minLen maxLen maxDepth g bytes n.toNat).2 =
      ((List.range n.toNat).map
        (fun k => (iterate outDir minLen maxLen maxDepth (g k) (bytes k)).2)).flatten ∧
    ∀ k : ℕ, ∃ d p c,
      (iterate outDir minLen maxLen maxDepth (g k) (bytes k)).2 =
        [FsOp.mkdirRec d, FsOp.writeFile p c] ∧
      (iterate outDir minLen maxLen maxDepth (g k) (bytes k)).1 = p := by
  have hs := mainLoop_spec outDir minLen maxLen maxDepth g bytes n.toNat
  refine ⟨?_, ?_, ?_, ?_⟩
  · rw [mainLoop_length outDir minLen maxLen maxDepth g bytes n.toNat]
    omega
  · rw [hs]
  · rw [hs]
  · intro k
    exact ⟨_, _, _, rfl, rfl⟩

/-- Witness for C6 at count 2 with the all-zero streams. -/
theorem claim_C6_witness :
    (0 : ℤ) ≤ 2 ∧
    ((mainLoop "/out" 1 2 3 zeroRand zeroBytes (2 : ℤ).toNat).1.length : ℤ) = 2 :=
  ⟨by norm_num,
    (claim_C6_loop_creates_exactly_count_files "/out" 1 2 3 zeroRand zeroBytes 2
      (by norm_num)).1⟩

/-- Claim C7: each written file obeys its extension's format contract: markup
output is the fixed document shell with the full payload in the body and the
hex token as title; script output is a self-invoking function whose quoted
string literal is the full payload (the payload, being letters only, contains
no quote or backslash); stylesheet output sets `content` on a `body::after`
rule to exactly the first 30 characters of the payload; plain text is the raw
payload unwrapped; and `makeRandomFile`'s written content is exactly this
wrapping of its drawn extension (one of the four) over its raw payload. -/
theorem claim_C7_format_contracts (content hex dir : String)
    (minLen maxLen : ℤ) (g : ℕ → ℚ) (bytes : ℕ → ℕ)
    (hc : ∀ c ∈ content.data, c ∈ letters.data) :
    wrapContent ".html" content hex =
      "<!doctype html>\n<html>\n<head>\n  <meta charset=\"utf-8\">\n  <title>" ++
        hex ++ "</title>\n</head>\n<body>\n" ++ content ++ "\n</body>\n</html>\n" ∧
    wrapContent ".js" content hex =
      "// " ++ hex ++ "\n(function()\x7b\n  const s = \"" ++ content ++
        "\";\n  // random content\n  return s.length;\n\x7d)();\n" ∧
    wrapContent ".css" content hex =
      "/* " ++ hex ++ " */\nbody::after \x7b content: \"" ++ sliceTo content 30 ++
        "\"; \x7d\n" ∧
    wrapContent ".txt" content hex = content ∧
    (sliceTo content 30).data = content.data.take 30 ∧
    (30 ≤ content.length → (sliceTo content 30).length = 30) ∧
    '"' ∉ content.data ∧ '\\' ∉ content.data ∧
    (makeRandomFile dir minLen maxLen g bytes).finalContent =
      wrapContent (makeRandomFile dir minLen maxLen g bytes).ext
        (makeRandomFile dir minLen maxLen g bytes).rawContent
        (rndHex (fun i => bytes (4 + i)) 6) ∧
    ((∀ n, 0 ≤ g n ∧ g n < 1) →
      (makeRandomFile dir minLen maxLen g bytes).ext ∈ exts) := by
  have hq : '"' ∉ content.data := fun h => by
    have := hc _ h
    revert this
    decide
  have hb : '\\' ∉ content.data := fun h => by
    have := hc _ h
    revert this
    decide
  refine ⟨rfl, rfl, rfl, rfl, rfl, ?_, hq, hb, rfl, ?_⟩
  · intro h30
    unfold sliceTo
    rw [String.length_mk, List.length_take]
    have : content.data.length = content.length := rfl
    omega
  · intro hg
    have hb4 := floor_mul_lt (g 0) ((exts.length : ℤ)) (hg 0).1 (hg 0).2
      (by decide)
    have hext : (makeRandomFile dir minLen maxLen g bytes).ext =
        arrGet exts ⌊g 0 * ((exts.length : ℤ) : ℚ)⌋ := rfl
    rw [hext]
    unfold arrGet
    rw [if_pos hb4.1]
    have h4 : ⌊g 0 * ((exts.length : ℤ) : ℚ)⌋.toNat = 0 ∨
        ⌊g 0 * ((exts.length : ℤ) : ℚ)⌋.toNat = 1 ∨
        ⌊g 0 * ((exts.length : ℤ) : ℚ)⌋.toNat = 2 ∨
        ⌊g 0 * ((exts.length : ℤ) : ℚ)⌋.toNat = 3 := by
      have h2 := hb4.2
      have h3 := hb4.1
      have he : (exts.length : ℤ) = 4 := by decide
      rw [he] at h2
      omega
    rcases h4 with h | h | h | h <;> rw [h] <;> decide

/-- Witness for C7 at the letters-only payload `"abc"`. -/
theorem claim_C7_witness :
    (∀ c ∈ ("abc" : String).data, c ∈ letters.data) ∧
    wrapContent ".txt" "abc" "ff" = "abc" ∧
    '"' ∉ ("abc" : String).data ∧
    ((∀ n, 0 ≤ zeroRand1 n ∧ zeroRand1 n < 1) →
      (makeRandomFile "/d" 1 3 zeroRand1 zeroBytes1).ext ∈ exts) :=
  have happ := claim_C7_format_contracts "abc" "ff" "/d" 1 3 zeroRand1 zeroBytes1
    (by decide)
  ⟨by decide, happ.2.2.2.1, happ.2.2.2.2.2.2.1, happ.2.2.2.2.2.2.2.2.2⟩

/-- Claim C1 (code behaviour at the spec's `--count 0` scenario): the token
`0` is parsed but discarded by the `|| opts.count` fallback (0 is falsy in
JS), so the resolved count is the default 20, not 0, and 20 files are
created; the base directory is still created first and the exit code is 0. -/
theorem claim_C1_count_zero_behaviour :
    parseArgs "/cwd" ["--count", "0"] (DEFAULTS "/cwd") =
      .opts (DEFAULTS "/cwd") ∧
    (DEFAULTS "/cwd").count = 20 ∧
    (mainRun "/cwd" ["--count", "0"] zeroRand zeroBytes).createdFiles.length = 20 ∧
    (mainRun "/cwd" ["--count", "0"] zeroRand zeroBytes).createdFiles.length ≠ 0 ∧
    (mainRun "/cwd" ["--count", "0"] zeroRand zeroBytes).exitCode = 0 ∧
    (mainRun "/cwd" ["--count", "0"] zeroRand zeroBytes).fsTrace.head? =
      some (FsOp.mkdirRec (DEFAULTS "/cwd").outDir) := by
  have hparse : parseArgs "/cwd" ["--count", "0"] (DEFAULTS "/cwd") =
      .opts (DEFAULTS "/cwd") := by decide
  have hrun := mainRun_of_opts "/cwd" ["--count", "0"] zeroRand zeroBytes
    (DEFAULTS "/cwd") hparse
  have hclamp : clampOpts (DEFAULTS "/cwd") = DEFAULTS "/cwd" := by decide
  rw [hclamp] at hrun
  have hlen : (mainRun "/cwd" ["--count", "0"] zeroRand zeroBytes).createdFiles.length = 20 := by
    rw [hrun]
    show (mainLoop (DEFAULTS "/cwd").outDir (DEFAULTS "/cwd").minLen
      (DEFAULTS "/cwd").maxLen (DEFAULTS "/cwd").maxDepth zeroRand zeroBytes
      (DEFAULTS "/cwd").count.toNat).1.length = 20
    rw [mainLoop_length]
    rfl
  refine ⟨hparse, rfl, hlen, ?_, ?_, ?_⟩
  · rw [hlen]
    omega
  · rw [hrun]
    rfl
  · rw [hrun]
    rfl

/-- Claim C8 counterexample: in `--count --help` the token `--help` appears
among the arguments but is consumed as `--count`'s value, so no usage text is
printed and the run proceeds to create 20 files. -/
theorem claim_C8_counterexample :
    ("--help" : String) ∈ ["--count", "--help"] ∧
    parseArgs "/cwd" ["--count", "--help"] (DEFAULTS "/cwd") =
      .opts (DEFAULTS "/cwd") ∧
    mainRun "/cwd" ["--count", "--help"] zeroRand zeroBytes ≠ .helpExit ∧
    (mainRun "/cwd" ["--count", "--help"] zeroRand zeroBytes).createdFiles.length = 20 := by
  have hparse : parseArgs "/cwd" ["--count", "--help"] (DEFAULTS "/cwd") =
      .opts (DEFAULTS "/cwd") := by decide
  have hrun := mainRun_of_opts "/cwd" ["--count", "--help"] zeroRand zeroBytes
    (DEFAULTS "/cwd") hparse
  have hclamp : clampOpts (DEFAULTS "/cwd") = DEFAULTS "/cwd" := by decide
  rw [hclamp] at hrun
  refine ⟨by decide, hparse, ?_, ?_⟩
  · rw [hrun]
    intro h
    cases h
  · rw [hrun]
    show (mainLoop (DEFAULTS "/cwd").outDir (DEFAULTS "/cwd").minLen
      (DEFAULTS "/cwd").maxLen (DEFAULTS "/cwd").maxDepth zeroRand zeroBytes
      (DEFAULTS "/cwd").count.toNat).1.length = 20
    rw [mainLoop_length]
    rfl

/-- Claim C8 (amended): whenever the parse loop reaches `--help` or `-h` as a
flag — not consumed as the value of an immediately preceding value-taking
flag; in particular whenever it is the first argument — the program prints the
usage text and exits with code 0 before creating any file or directory. -/
theorem claim_C8_amended_help_exit (cwd : String) (argv rest : List String)
    (g : ℕ → ℕ → ℚ) (bytes : ℕ → ℕ → ℕ)
    (h : parseArgs cwd argv (DEFAULTS cwd) = .help) :
    mainRun cwd argv g bytes = .helpExit ∧
    (mainRun cwd argv g bytes).fsTrace = [] ∧
    (mainRun cwd argv g bytes).createdFiles = [] ∧
    (mainRun cwd argv g bytes).exitCode = 0 ∧
    (mainRun cwd argv g bytes).stdoutLines cwd = [usage] ∧
    mainRun cwd ("--help" :: rest) g bytes = .helpExit ∧
    mainRun cwd ("-h" :: rest) g bytes = .helpExit := by
  have hrun := mainRun_of_help cwd argv g bytes h
  refine ⟨hrun, by rw [hrun]; rfl, by rw [hrun]; rfl, by rw [hrun]; rfl,
    by rw [hrun]; rfl, ?_, ?_⟩
  · exact mainRun_of_help cwd _ g bytes (parseArgs_help_head cwd rest (DEFAULTS cwd))
  · exact mainRun_of_help cwd _ g bytes (parseArgs_h_head cwd rest (DEFAULTS cwd))

/-- Witness for the amended C8 at the single argument `--help`. -/
theorem claim_C8_amended_witness :
    parseArgs "/cwd" ["--help"] (DEFAULTS "/cwd") = .help ∧
    mainRun "/cwd" ["--help"] zeroRand zeroBytes = .helpExit ∧
    (mainRun "/cwd" ["--help"] zeroRand zeroBytes).fsTrace = [] :=
  have happ := claim_C8_amended_help_exit "/cwd" ["--help"] [] zeroRand zeroBytes
    (by decide)
  ⟨by decide, happ.1, happ.2.1⟩

end RandomFileGen
